import Mathlib

/-!
# Verification of the tabular cleaning-and-aggregation pipeline

Shallow embedding of the repeated filter / derive / group-by-mean / reindex
pipeline of the analysis scripts in this repository, together with theorems
settling the specification claims about it.

Conventions of the embedding:
* a pandas DataFrame is a `List` of records (one structure per script schema);
* integer survey codes are `Int`; means are exact rationals (`ℚ`);
* a pandas `NaN` cell is `Option.none` (`dropna` keeps `isSome` rows,
  `groupby` drops `none` keys, a left merge fills unmatched keys with `none`);
* `df.groupby(k)[v].mean()` lists the distinct observed keys in ascending
  order (the pandas default sort) with the arithmetic mean of `v` per key.
-/

namespace Pipeline

/-- Arithmetic mean of a list of values, as pandas `.mean()` computes it
(sum divided by count); only ever applied to nonempty groups. -/
def meanOf (vals : List ℚ) : ℚ := vals.sum / vals.length

/-- The distinct group keys of a grouped frame, in ascending order
(pandas `groupby` sorts group keys ascending by default). -/
def groupKeys (keys : List Int) : List Int := List.insertionSort (· ≤ ·) keys.dedup

/-- `df.groupby(key)[target].mean().reset_index()` on a list of
`(key, target)` rows: one `(key, mean)` row per distinct key, keys ascending
(`1_bar_chart.py` line 41, `3_life_satisfaction_bulgaria_eu.py` lines 40-41). -/
def groupby_mean (rows : List (Int × ℚ)) : List (Int × ℚ) :=
  (groupKeys (rows.map Prod.fst)).map
    (fun k => (k, meanOf ((rows.filter (fun p => decide (p.1 = k))).map Prod.snd)))

/-- The rows a left merge produces for one axis entry: an unmatched entry
gets a single `none` (NaN) value, a matched entry one row per matching
right-hand row. -/
def merge_entry (rows : List (Int × ℚ)) (y : Int) : List (Int × Option ℚ) :=
  if rows.filter (fun p => decide (p.1 = y)) = [] then [(y, none)]
  else (rows.filter (fun p => decide (p.1 = y))).map (fun p => (y, some p.2))

/-- `pd.merge(axis_frame, rows, on=key, how=left)`
(`3_life_satisfaction_bulgaria_eu.py` lines 43-45): every axis entry is kept
in axis order, each contributing its matched rows (or one NaN row). -/
def merge_left (axis : List Int) (rows : List (Int × ℚ)) : List (Int × Option ℚ) :=
  axis.flatMap (merge_entry rows)

/-- Size of the group of rows carrying a given key, as
`groupby(...).size()` computes it (`2_ridgeline_power_hedonism.py` line 75). -/
def group_size (rows : List (Int × ℚ)) (k : Int) : Nat :=
  (rows.filter (fun p => decide (p.1 = k))).length

/-- One output row of the reindexed aggregation: group key, mean of the
target field (`none` when no record contributed), count of contributing
records, and the no-data flag. -/
structure AggregateRow where
  key : Int
  mean : Option ℚ
  count : Nat
  noData : Bool
deriving DecidableEq

/-- The full reindexed aggregate handed to a renderer, assembled from the
operations the scripts perform: per-key means (`1_bar_chart.py` line 41),
reindexing by left merge against the canonical axis
(`3_life_satisfaction_bulgaria_eu.py` lines 43-45) and per-group sizes
(`2_ridgeline_power_hedonism.py` line 75). -/
def aggregate_rows (axis : List Int) (rows : List (Int × ℚ)) : List AggregateRow :=
  (merge_left axis (groupby_mean rows)).map
    (fun p => { key := p.1, mean := p.2, count := group_size rows p.1, noData := p.2.isNone })

/-- The data labels a plot renders: one label per row whose value is present,
skipping missing values (`3_life_satisfaction_bulgaria_eu.py` lines 117-125,
the `pd.isna` guard in `_add_data_labels`). -/
def data_labels (out : List (Int × Option ℚ)) : List (Int × ℚ) :=
  out.filterMap (fun p => p.2.map (fun m => (p.1, m)))

end Pipeline

namespace BarChart

/-- One raw row of `ESS10-subset.csv` restricted to the columns
`1_bar_chart.py` extracts (line 204): life satisfaction, belonging to a
religion, frequency of socializing. -/
structure RawRecord where
  stflife : Int
  rlgblg : Int
  sclmeet : Int
deriving DecidableEq

/-- A row of `df_chart` after `clean_data`: `stflife` and the derived
`religious` column may be `None` before `dropna` removes such rows. -/
structure ChartRecord where
  stflife : Option Int
  religious : Option String
  sclmeet : Int
deriving DecidableEq

/-- The derived religious label of `1_bar_chart.py` line 32:
1 maps to Religious, 2 to Non-religious, anything else to `None`. -/
def religiousLabel (x : Int) : Option String :=
  if x = 1 then some "Religious" else if x = 2 then some "Non-religious" else none

/-- The per-row part of `clean_data` (`1_bar_chart.py` lines 31-32):
`stflife` is kept only inside 0..10, `religious` is derived from `rlgblg`. -/
def mkChartRecord (r : RawRecord) : ChartRecord :=
  { stflife := if 0 ≤ r.stflife ∧ r.stflife ≤ 10 then some r.stflife else none
    religious := religiousLabel r.rlgblg
    sclmeet := r.sclmeet }

/-- `DataProcessor.clean_data` (`1_bar_chart.py` lines 27-35): recode the two
columns, keep `sclmeet` between 1 and 7, then `dropna` on `stflife` and
`religious`. -/
def clean_data (rs : List RawRecord) : List ChartRecord :=
  ((rs.map mkChartRecord).filter
      (fun r => decide (1 ≤ r.sclmeet ∧ r.sclmeet ≤ 7))).filter
    (fun r => r.stflife.isSome && r.religious.isSome)

/-- The conjunction of the validity rules `clean_data` enforces on a raw row:
`stflife` in 0..10, `rlgblg` in {1, 2}, `sclmeet` in 1..7. -/
def isValid (r : RawRecord) : Prop :=
  (0 ≤ r.stflife ∧ r.stflife ≤ 10) ∧ (r.rlgblg = 1 ∨ r.rlgblg = 2) ∧
    1 ≤ r.sclmeet ∧ r.sclmeet ≤ 7

instance : DecidablePred isValid := fun r => by unfold isValid; infer_instance

/-- The cleaned rows contributing to the group of one
`(sclmeet, religious)` combination of the group-by on `1_bar_chart.py`
line 41. -/
def group (rs : List RawRecord) (m : Int) (lbl : String) : List ChartRecord :=
  (clean_data rs).filter
    (fun r => decide (r.sclmeet = m) && decide (r.religious = some lbl))

/-- Mean life satisfaction of one group of the group-by on `1_bar_chart.py`
line 41. -/
def groupMean (rs : List RawRecord) (m : Int) (lbl : String) : ℚ :=
  Pipeline.meanOf (((group rs m lbl).filterMap (fun r => r.stflife)).map (fun v => (v : ℚ)))

/-- `DataProcessor.get_total_observations` (`1_bar_chart.py` lines 45-49):
the length of the cleaned frame, reported as N in the footnote. -/
def get_total_observations (rs : List RawRecord) : Nat := (clean_data rs).length

end BarChart

namespace Ridgeline

/-- One raw row of `ESS10-subset.csv` restricted to the columns used by
`2_ridgeline_power_hedonism.py`. -/
structure Record where
  imprich : Int
  iprspot : Int
  ipgdtim : Int
  impfun : Int
  eisced : Int
deriving DecidableEq

/-- `VALID_RANGE` of `2_ridgeline_power_hedonism.py` line 191. -/
def VALID_RANGE : List Int := [1, 2, 3, 4, 5, 6]

/-- `DataProcessor.clean_data` (`2_ridgeline_power_hedonism.py` lines 22-28):
keep rows whose four value items all lie in `VALID_RANGE`, then keep rows
whose `eisced` lies in `range(1, 8)`. -/
def clean_data (rs : List Record) : List Record :=
  (rs.filter (fun r =>
      decide (r.imprich ∈ VALID_RANGE ∧ r.iprspot ∈ VALID_RANGE ∧
        r.ipgdtim ∈ VALID_RANGE ∧ r.impfun ∈ VALID_RANGE))).filter
    (fun r => decide (r.eisced ∈ ([1, 2, 3, 4, 5, 6, 7] : List Int)))

/-- The conjunction of the validity rules `clean_data` enforces. -/
def isValid (r : Record) : Prop :=
  (r.imprich ∈ VALID_RANGE ∧ r.iprspot ∈ VALID_RANGE ∧
    r.ipgdtim ∈ VALID_RANGE ∧ r.impfun ∈ VALID_RANGE) ∧
    r.eisced ∈ ([1, 2, 3, 4, 5, 6, 7] : List Int)

instance : DecidablePred isValid := fun r => by unfold isValid; infer_instance

/-- A cleaned row with the two derived composite scores of
`construct_values`. -/
structure VRecord extends Record where
  power_avg : ℚ
  hedonism_avg : ℚ
deriving DecidableEq

/-- The per-row derivation of `DataProcessor.construct_values`
(`2_ridgeline_power_hedonism.py` lines 30-34): row-wise means of two item
pairs. -/
def vRecord (r : Record) : VRecord :=
  { toRecord := r
    power_avg := ((r.imprich : ℚ) + (r.iprspot : ℚ)) / 2
    hedonism_avg := ((r.ipgdtim : ℚ) + (r.impfun : ℚ)) / 2 }

/-- `DataProcessor.construct_values` over the whole frame. -/
def construct_values (rs : List Record) : List VRecord := rs.map vRecord

/-- A row with the derived education label column. -/
structure LRecord extends VRecord where
  edu_label : Option String
deriving DecidableEq

/-- `EDU_LABELS` of `2_ridgeline_power_hedonism.py` lines 192-199; note that
code 3 has no entry. -/
def EDU_LABELS : List (Int × String) :=
  [(1, "Primary education"), (2, "Lower secondary"), (4, "Upper secondary"),
    (5, "Post-secondary vocational"), (6, "Short-cycle tertiary"),
    (7, "Bachelor\x27s or higher")]

/-- `EDU_ORDER` of `2_ridgeline_power_hedonism.py` lines 200-207, the
canonical axis of education labels. -/
def EDU_ORDER : List String :=
  ["Primary education", "Lower secondary", "Upper secondary",
    "Post-secondary vocational", "Short-cycle tertiary", "Bachelor\x27s or higher"]

/-- `pd.Categorical(values, categories)` on one cell: a value outside the
category list becomes `NaN`. -/
def categorical (cats : List String) (l : Option String) : Option String :=
  l.bind (fun s => if s ∈ cats then some s else none)

/-- The per-row part of `DataProcessor.apply_education_labels`
(`2_ridgeline_power_hedonism.py` lines 36-40): map `eisced` through
`EDU_LABELS` (an unmapped code becomes `NaN`), then restrict to the
`EDU_ORDER` categories. -/
def labelRecord (r : VRecord) : LRecord :=
  { toVRecord := r, edu_label := categorical EDU_ORDER (EDU_LABELS.lookup r.eisced) }

/-- `DataProcessor.apply_education_labels` over the whole frame. -/
def apply_education_labels (rs : List VRecord) : List LRecord := rs.map labelRecord

/-- The processed frame handed to the plot objects
(`2_ridgeline_power_hedonism.py` lines 236-238):
`load_data().clean_data(VALID_RANGE).construct_values().apply_education_labels(...)`. -/
def pipelineData (rs : List Record) : List LRecord :=
  apply_education_labels (construct_values (clean_data rs))

/-- The processed rows contributing to the group of one education label in
the group-bys of `RidgePlotter.create_plot`
(`2_ridgeline_power_hedonism.py` lines 75 and 106); rows whose `edu_label`
is `NaN` belong to no group. -/
def contributors (rs : List Record) (lbl : String) : List LRecord :=
  (pipelineData rs).filter (fun r => decide (r.edu_label = some lbl))

/-- `group_counts` of `RidgePlotter.create_plot`
(`2_ridgeline_power_hedonism.py` line 75): the group size per education
category, in category order. -/
def group_counts (rs : List Record) : List (String × Nat) :=
  EDU_ORDER.map (fun l => (l, (contributors rs l).length))

/-- The N the footnote reports (`2_ridgeline_power_hedonism.py` line 175:
`len(self.data)` on the processed frame). -/
def footnote_N (rs : List Record) : Nat := (pipelineData rs).length

end Ridgeline

namespace LifeSat

/-- One raw row of the life-satisfaction extracts used by
`3_life_satisfaction_bulgaria_eu.py`. -/
structure Record where
  essround : Int
  stflife : Int
deriving DecidableEq

/-- `ESS_ROUND_INFO` of `3_life_satisfaction_bulgaria_eu.py` lines 183-195:
round, year, participation flag. -/
def ESS_ROUND_INFO : List (Int × Int × Bool) :=
  [(1, 2002, false), (2, 2004, false), (3, 2006, true), (4, 2008, true),
    (5, 2010, true), (6, 2012, true), (7, 2014, false), (8, 2016, false),
    (9, 2018, true), (10, 2020, true), (11, 2022, false)]

/-- `ess_round_to_year` as a lookup (`3_life_satisfaction_bulgaria_eu.py`
line 14); a round outside the map yields `NaN`. -/
def essRoundToYear (r : Int) : Option Int :=
  (ESS_ROUND_INFO.map (fun p => (p.1, p.2.1))).lookup r

/-- `ess_years` (`3_life_satisfaction_bulgaria_eu.py` line 15): the sorted
year values of the round map, the canonical axis of the chart. -/
def ESS_YEARS : List Int :=
  List.insertionSort (· ≤ ·) (ESS_ROUND_INFO.map (fun p => p.2.1))

/-- A row of the prepared frame: the mapped `year` (possibly `NaN`) and the
life-satisfaction answer. -/
structure YearRecord where
  year : Option Int
  stflife : Int
deriving DecidableEq

/-- `DataManager.prepare_data` (`3_life_satisfaction_bulgaria_eu.py`
lines 29-36): map the round to a year, keep rows with `stflife` in 0..10. -/
def prepare_data (rs : List Record) : List YearRecord :=
  (rs.map (fun r => { year := essRoundToYear r.essround, stflife := r.stflife })).filter
    (fun r => decide (0 ≤ r.stflife ∧ r.stflife ≤ 10))

/-- The `(year, stflife)` rows entering the group-by of `aggregate_data`;
rows with a `NaN` year are dropped by pandas `groupby`. -/
def yearRows (rs : List Record) : List (Int × ℚ) :=
  (prepare_data rs).filterMap (fun r => r.year.map (fun y => (y, (r.stflife : ℚ))))

/-- `DataManager.aggregate_data` (`3_life_satisfaction_bulgaria_eu.py`
lines 38-46): per-year mean of `stflife`, then a left merge against the
frame of all ESS years. -/
def aggregate_data (rs : List Record) : List (Int × Option ℚ) :=
  Pipeline.merge_left ESS_YEARS (Pipeline.groupby_mean (yearRows rs))

/-- `DataManager.get_total_observations_bg`
(`3_life_satisfaction_bulgaria_eu.py` lines 56-58): the length of the
cleaned frame. -/
def get_total_observations (rs : List Record) : Nat := (prepare_data rs).length

end LifeSat

namespace Openness

/-- One raw row of `ESS10-subset.csv` restricted to the columns used by
`4_openness.py`: age, religion, and the six openness items. -/
structure Record where
  agea : Int
  rlgblg : Int
  ipcrtiv : Int
  ipgdtim : Int
  impdiff : Int
  ipadvnt : Int
  impfun : Int
  impfree : Int
deriving DecidableEq

/-- Membership of one item answer in python `range(1, 7)`. -/
def itemValid (x : Int) : Prop := 1 ≤ x ∧ x < 7

instance : DecidablePred itemValid := fun x => by unfold itemValid; infer_instance

/-- The filter of `DataProcessor.filter_data` (`4_openness.py` lines 21-28):
`agea` is not the 999 sentinel, `rlgblg` is in {1, 2}, and all six openness
items lie in `range(1, 7)`. -/
def isValid (r : Record) : Prop :=
  r.agea ≠ 999 ∧ (r.rlgblg = 1 ∨ r.rlgblg = 2) ∧ itemValid r.ipcrtiv ∧
    itemValid r.ipgdtim ∧ itemValid r.impdiff ∧ itemValid r.ipadvnt ∧
    itemValid r.impfun ∧ itemValid r.impfree

instance : DecidablePred isValid := fun r => by unfold isValid; infer_instance

/-- `DataProcessor.filter_data` over the whole frame. -/
def filter_data (rs : List Record) : List Record := rs.filter (fun r => decide (isValid r))

/-- The per-row recode of `DataProcessor.reverse_scale` (`4_openness.py`
lines 30-34): every openness item is replaced by `7 - x`. -/
def reverseRecord (r : Record) : Record :=
  { r with
    ipcrtiv := 7 - r.ipcrtiv
    ipgdtim := 7 - r.ipgdtim
    impdiff := 7 - r.impdiff
    ipadvnt := 7 - r.ipadvnt
    impfun := 7 - r.impfun
    impfree := 7 - r.impfree }

/-- `DataProcessor.reverse_scale` over the whole frame. -/
def reverse_scale (rs : List Record) : List Record := rs.map reverseRecord

/-- A row with the derived composite openness score. -/
structure ORecord extends Record where
  openness : ℚ
deriving DecidableEq

/-- The per-row derivation of `DataProcessor.compute_openness`
(`4_openness.py` lines 36-39): the row-wise mean of the six items. -/
def oRecord (r : Record) : ORecord :=
  { toRecord := r
    openness := ((r.ipcrtiv : ℚ) + (r.ipgdtim : ℚ) + (r.impdiff : ℚ) + (r.ipadvnt : ℚ) +
      (r.impfun : ℚ) + (r.impfree : ℚ)) / 6 }

/-- `DataProcessor.compute_openness` over the whole frame. -/
def compute_openness (rs : List Record) : List ORecord := rs.map oRecord

/-- The processed frame of `4_openness.py` line 148:
`load_data().filter_data().reverse_scale().compute_openness()`. -/
def pipelineData (rs : List Record) : List ORecord :=
  compute_openness (reverse_scale (filter_data rs))

end Openness

/-! ## Helper lemmas about the generic pipeline operations -/

namespace Pipeline

theorem mem_groupKeys {l : List Int} {k : Int} : k ∈ groupKeys l ↔ k ∈ l :=
  (List.perm_insertionSort _ _).mem_iff.trans (List.mem_dedup)

theorem groupKeys_nodup (l : List Int) : (groupKeys l).Nodup :=
  ((List.perm_insertionSort _ _).nodup_iff).mpr (List.nodup_dedup l)

theorem groupKeys_sorted (l : List Int) : List.Sorted (· ≤ ·) (groupKeys l) :=
  List.sorted_insertionSort _ _

theorem groupby_mean_map_fst (rows : List (Int × ℚ)) :
    (groupby_mean rows).map Prod.fst = groupKeys (rows.map Prod.fst) := by
  simp [groupby_mean, List.map_map, Function.comp_def]

theorem groupby_mean_keys_nodup (rows : List (Int × ℚ)) :
    ((groupby_mean rows).map Prod.fst).Nodup := by
  rw [groupby_mean_map_fst]
  exact groupKeys_nodup _

theorem mem_fst_groupby_mean {rows : List (Int × ℚ)} {k : Int} :
    k ∈ (groupby_mean rows).map Prod.fst ↔ k ∈ rows.map Prod.fst := by
  rw [groupby_mean_map_fst]
  exact mem_groupKeys

theorem filter_key_eq_nil {rows : List (Int × ℚ)} {y : Int}
    (h : ∀ p ∈ rows, p.1 ≠ y) : rows.filter (fun p => decide (p.1 = y)) = [] := by
  apply List.filter_eq_nil_iff.mpr
  intro p hp
  simpa using h p hp

theorem filter_key_singleton {rows : List (Int × ℚ)} (h : (rows.map Prod.fst).Nodup)
    (y : Int) :
    rows.filter (fun p => decide (p.1 = y)) = [] ∨
      ∃ v, rows.filter (fun p => decide (p.1 = y)) = [(y, v)] := by
  induction rows with
  | nil => exact Or.inl rfl
  | cons p rows ih =>
    simp only [List.map_cons, List.nodup_cons] at h
    obtain ⟨hp, hrows⟩ := h
    by_cases hy : p.1 = y
    · right
      refine ⟨p.2, ?_⟩
      rw [List.filter_cons_of_pos (by simpa using hy)]
      have hnil : rows.filter (fun q => decide (q.1 = y)) = [] := by
        apply filter_key_eq_nil
        intro q hq hq1
        exact hp (hy ▸ hq1 ▸ List.mem_map_of_mem Prod.fst hq)
      rw [hnil]
      have : p = (y, p.2) := by
        cases p
        simp_all
      rw [← this]
    · rw [List.filter_cons_of_neg (by simpa using hy)]
      exact ih hrows

theorem merge_entry_shape {rows : List (Int × ℚ)} (h : (rows.map Prod.fst).Nodup)
    (y : Int) : ∃ m, merge_entry rows y = [(y, m)] := by
  rcases filter_key_singleton h y with hf | ⟨v, hf⟩
  · exact ⟨none, by simp [merge_entry, hf]⟩
  · refine ⟨some v, ?_⟩
    simp [merge_entry, hf]

theorem merge_entry_of_no_match {rows : List (Int × ℚ)} {y : Int}
    (h : ∀ p ∈ rows, p.1 ≠ y) : merge_entry rows y = [(y, none)] := by
  simp [merge_entry, filter_key_eq_nil h]

theorem fst_of_mem_merge_entry {rows : List (Int × ℚ)} {a y : Int} {m : Option ℚ}
    (h : (y, m) ∈ merge_entry rows a) : y = a := by
  unfold merge_entry at h
  split at h
  · simpa using congrArg Prod.fst (List.mem_singleton.mp h)
  · obtain ⟨p, _, hpe⟩ := List.mem_map.mp h
    simpa using (congrArg Prod.fst hpe).symm

theorem mem_merge_left {axis : List Int} {rows : List (Int × ℚ)} {y : Int}
    {m : Option ℚ} (h : (y, m) ∈ merge_left axis rows) :
    y ∈ axis ∧
      ((m = none ∧ rows.filter (fun p => decide (p.1 = y)) = []) ∨
        ∃ v, m = some v ∧ (y, v) ∈ rows) := by
  obtain ⟨a, ha, hmem⟩ := List.mem_flatMap.mp h
  obtain rfl := fst_of_mem_merge_entry hmem
  refine ⟨ha, ?_⟩
  unfold merge_entry at hmem
  split at hmem
  · left
    constructor
    · simpa using hmem
    · assumption
  · right
    obtain ⟨p, hp, hpe⟩ := List.mem_map.mp hmem
    obtain ⟨hp1, hp2⟩ := Prod.mk.injEq .. ▸ hpe
    refine ⟨p.2, hp2.symm, ?_⟩
    have hpr := List.mem_of_mem_filter hp
    have hpy : p.1 = y := by simpa using (List.mem_filter.mp hp).2
    cases p
    simp_all

theorem merge_left_map_fst {rows : List (Int × ℚ)} (h : (rows.map Prod.fst).Nodup)
    (axis : List Int) : (merge_left axis rows).map Prod.fst = axis := by
  induction axis with
  | nil => rfl
  | cons y axis ih =>
    obtain ⟨m, hm⟩ := merge_entry_shape h y
    rw [merge_left, List.flatMap_cons, List.map_append, hm]
    have ih' : (axis.flatMap (merge_entry rows)).map Prod.fst = axis := ih
    rw [ih']
    rfl

theorem merge_left_length {rows : List (Int × ℚ)} (h : (rows.map Prod.fst).Nodup)
    (axis : List Int) : (merge_left axis rows).length = axis.length := by
  have := congrArg List.length (merge_left_map_fst h axis)
  simpa using this

theorem mem_data_labels {out : List (Int × Option ℚ)} {y : Int} {q : ℚ} :
    (y, q) ∈ data_labels out ↔ (y, some q) ∈ out := by
  constructor
  · intro h
    obtain ⟨p, hp, hpe⟩ := List.mem_filterMap.mp h
    obtain ⟨m, hm, hme⟩ := Option.map_eq_some'.mp hpe
    obtain ⟨h1, h2⟩ := Prod.mk.injEq .. ▸ hme
    cases p
    simp_all
  · intro h
    exact List.mem_filterMap.mpr ⟨(y, some q), h, rfl⟩

end Pipeline

/-! ## Factorization lemmas: each script pipeline is a filter followed by a map -/

theorem barChart_clean_data_eq (rs : List BarChart.RawRecord) :
    BarChart.clean_data rs =
      (rs.filter (fun r => decide (BarChart.isValid r))).map BarChart.mkChartRecord := by
  unfold BarChart.clean_data
  rw [List.filter_map, List.filter_map, List.filter_filter]
  congr 1
  apply List.filter_congr
  intro r _
  cases r with
  | mk a b c =>
    simp only [Function.comp_apply, BarChart.mkChartRecord, BarChart.religiousLabel,
      BarChart.isValid]
    rw [Bool.eq_iff_iff]
    simp only [Bool.and_eq_true, decide_eq_true_eq]
    split_ifs <;> simp_all

theorem barChart_mem_clean_data {rs : List BarChart.RawRecord} {r' : BarChart.ChartRecord} :
    r' ∈ BarChart.clean_data rs ↔
      ∃ r, r ∈ rs ∧ BarChart.isValid r ∧ BarChart.mkChartRecord r = r' := by
  rw [barChart_clean_data_eq]
  simp only [List.mem_map, List.mem_filter, decide_eq_true_eq]
  constructor
  · rintro ⟨r, ⟨hr, hv⟩, he⟩
    exact ⟨r, hr, hv, he⟩
  · rintro ⟨r, hr, hv, he⟩
    exact ⟨r, ⟨hr, hv⟩, he⟩

theorem ridgeline_clean_data_eq (rs : List Ridgeline.Record) :
    Ridgeline.clean_data rs = rs.filter (fun r => decide (Ridgeline.isValid r)) := by
  unfold Ridgeline.clean_data
  rw [List.filter_filter]
  apply List.filter_congr
  intro r _
  rw [Bool.eq_iff_iff]
  simp only [Bool.and_eq_true, decide_eq_true_eq, Ridgeline.isValid]
  tauto

theorem ridgeline_pipelineData_eq (rs : List Ridgeline.Record) :
    Ridgeline.pipelineData rs =
      (rs.filter (fun r => decide (Ridgeline.isValid r))).map
        (fun r => Ridgeline.labelRecord (Ridgeline.vRecord r)) := by
  unfold Ridgeline.pipelineData Ridgeline.apply_education_labels Ridgeline.construct_values
  rw [ridgeline_clean_data_eq, List.map_map]
  rfl

theorem openness_pipelineData_eq (rs : List Openness.Record) :
    Openness.pipelineData rs =
      (rs.filter (fun r => decide (Openness.isValid r))).map
        (fun r => Openness.oRecord (Openness.reverseRecord r)) := by
  unfold Openness.pipelineData Openness.compute_openness Openness.reverse_scale
    Openness.filter_data
  rw [List.map_map]
  rfl

/-! ## Claim theorems -/

/-- **C5**: applying the configured reverse-coding recode
(`newValue = 7 - oldValue`, `4_openness.py` lines 30-34) twice to any frame
returns every scale value to its original value: the recode is an
involution. -/
theorem C5_reverse_scale_involution (rs : List Openness.Record) :
    Openness.reverse_scale (Openness.reverse_scale rs) = rs := by
  unfold Openness.reverse_scale
  rw [List.map_map]
  apply List.map_id''
  intro r
  cases r
  simp [Openness.reverseRecord]

/-- **C6**: reverse-coding and composite-score construction are derive steps
run strictly after all validity filtering: each processed frame equals the
derive step mapped over exactly the records that pass every validity rule,
so only values of rule-passing records enter the derived averages
(`4_openness.py` line 148, `2_ridgeline_power_hedonism.py` line 237). -/
theorem C6_derive_after_filter :
    (∀ rs : List Openness.Record,
      Openness.pipelineData rs =
        (rs.filter (fun r => decide (Openness.isValid r))).map
          (fun r => Openness.oRecord (Openness.reverseRecord r))) ∧
    ∀ rs : List Ridgeline.Record,
      Ridgeline.pipelineData rs =
        (rs.filter (fun r => decide (Ridgeline.isValid r))).map
          (fun r => Ridgeline.labelRecord (Ridgeline.vRecord r)) :=
  ⟨openness_pipelineData_eq, ridgeline_pipelineData_eq⟩

/-- **C2**: aggregating and then reindexing against a canonical axis yields
exactly one output row per axis entry, in axis order, whatever group keys
occurred in the input rows (`3_life_satisfaction_bulgaria_eu.py`
lines 38-46). -/
theorem C2_reindex_counts_axis (rows : List (Int × ℚ)) (axis : List Int) :
    (Pipeline.merge_left axis (Pipeline.groupby_mean rows)).length = axis.length ∧
      (Pipeline.merge_left axis (Pipeline.groupby_mean rows)).map Prod.fst = axis :=
  ⟨Pipeline.merge_left_length (Pipeline.groupby_mean_keys_nodup rows) axis,
    Pipeline.merge_left_map_fst (Pipeline.groupby_mean_keys_nodup rows) axis⟩

/-- **C8**: with a canonical axis supplied, the reindexed output rows follow
the axis order; without one, the aggregate rows are listed by ascending
group-key value, without duplicate keys (pandas `groupby` default sort,
`1_bar_chart.py` line 41; reindexing in `3_life_satisfaction_bulgaria_eu.py`
lines 43-45 and `2_ridgeline_power_hedonism.py` line 106). -/
theorem C8_output_order (rows : List (Int × ℚ)) (axis : List Int) :
    List.Sorted (· ≤ ·) ((Pipeline.groupby_mean rows).map Prod.fst) ∧
      ((Pipeline.groupby_mean rows).map Prod.fst).Nodup ∧
      (Pipeline.merge_left axis (Pipeline.groupby_mean rows)).map Prod.fst = axis := by
  refine ⟨?_, Pipeline.groupby_mean_keys_nodup rows,
    Pipeline.merge_left_map_fst (Pipeline.groupby_mean_keys_nodup rows) axis⟩
  rw [Pipeline.groupby_mean_map_fst]
  exact Pipeline.groupKeys_sorted _

/-- **C3**: a canonical-axis year with no valid contributing record yields a
row carrying the explicit missing marker — never `0.0` or any other value —
and the row is not dropped; the renderer prints no data label for it
(`3_life_satisfaction_bulgaria_eu.py` lines 43-45 and 117-125). -/
theorem C3_empty_group_marker (rs : List LifeSat.Record) (y : Int)
    (hy : y ∈ LifeSat.ESS_YEARS)
    (hno : ∀ p ∈ LifeSat.yearRows rs, p.1 ≠ y) :
    (y, (none : Option ℚ)) ∈ LifeSat.aggregate_data rs ∧
      (∀ q : ℚ, (y, some q) ∉ LifeSat.aggregate_data rs) ∧
      ∀ q : ℚ, (y, q) ∉ Pipeline.data_labels (LifeSat.aggregate_data rs) := by
  have hkeys : ∀ p ∈ Pipeline.groupby_mean (LifeSat.yearRows rs), p.1 ≠ y := by
    intro p hp hpy
    have hmem : p.1 ∈ (Pipeline.groupby_mean (LifeSat.yearRows rs)).map Prod.fst :=
      List.mem_map_of_mem Prod.fst hp
    rw [Pipeline.mem_fst_groupby_mean] at hmem
    obtain ⟨q, hq, hqe⟩ := List.mem_map.mp hmem
    exact hno q hq (hqe.trans hpy)
  unfold LifeSat.aggregate_data
  refine ⟨?_, ?_, ?_⟩
  · apply List.mem_flatMap.mpr
    refine ⟨y, hy, ?_⟩
    rw [Pipeline.merge_entry_of_no_match hkeys]
    exact List.mem_singleton.mpr rfl
  · intro q hq
    rcases (Pipeline.mem_merge_left hq).2 with ⟨hn, _⟩ | ⟨v, _, hmem⟩
    · exact Option.some_ne_none q hn
    · exact hkeys (y, v) hmem rfl
  · intro q hq
    rw [Pipeline.mem_data_labels] at hq
    rcases (Pipeline.mem_merge_left hq).2 with ⟨hn, _⟩ | ⟨v, _, hmem⟩
    · exact Option.some_ne_none q hn
    · exact hkeys (y, v) hmem rfl

/-- Witness for `C3_empty_group_marker`: one Bulgarian round-1 record exists,
so the 2004 group is empty; the 2004 output row carries the missing marker
and is not `0.0`. -/
theorem C3_empty_group_marker_witness :
    (2004, (none : Option ℚ)) ∈ LifeSat.aggregate_data [⟨1, 5⟩] ∧
      (2004, some (0 : ℚ)) ∉ LifeSat.aggregate_data [⟨1, 5⟩] := by
  have h := C3_empty_group_marker [⟨1, 5⟩] 2004 (by decide) (by decide)
  exact ⟨h.1, h.2.1 0⟩

/-- **C10**: every record surviving `filter_data` (all six openness items in
1..6) still has all six items in 1..6 after reverse-coding, and its derived
composite openness score lies in the closed interval [1, 6]
(`4_openness.py` lines 21-39). -/
theorem C10_openness_bounds (rs : List Openness.Record) (r' : Openness.ORecord)
    (h : r' ∈ Openness.pipelineData rs) :
    (1 ≤ r'.ipcrtiv ∧ r'.ipcrtiv ≤ 6) ∧ (1 ≤ r'.ipgdtim ∧ r'.ipgdtim ≤ 6) ∧
      (1 ≤ r'.impdiff ∧ r'.impdiff ≤ 6) ∧ (1 ≤ r'.ipadvnt ∧ r'.ipadvnt ≤ 6) ∧
      (1 ≤ r'.impfun ∧ r'.impfun ≤ 6) ∧ (1 ≤ r'.impfree ∧ r'.impfree ≤ 6) ∧
      1 ≤ r'.openness ∧ r'.openness ≤ 6 := by
  rw [openness_pipelineData_eq] at h
  obtain ⟨r, hr, he⟩ := List.mem_map.mp h
  have hv : Openness.isValid r := by
    have hd := (List.mem_filter.mp hr).2
    simpa using hd
  obtain ⟨-, -, h1, h2, h3, h4, h5, h6⟩ := hv
  unfold Openness.itemValid at h1 h2 h3 h4 h5 h6
  subst he
  cases r with
  | mk ag rl a b c d e f =>
    simp only [Openness.oRecord, Openness.reverseRecord] at h1 h2 h3 h4 h5 h6 ⊢
    refine ⟨⟨by omega, by omega⟩, ⟨by omega, by omega⟩, ⟨by omega, by omega⟩,
      ⟨by omega, by omega⟩, ⟨by omega, by omega⟩, ⟨by omega, by omega⟩, ?_, ?_⟩
    all_goals
      have hs1 : (6 : Int) ≤ (7 - a) + (7 - b) + (7 - c) + (7 - d) + (7 - e) + (7 - f) := by
        omega
    all_goals
      have hs2 : (7 - a) + (7 - b) + (7 - c) + (7 - d) + (7 - e) + (7 - f) ≤ (36 : Int) := by
        omega
    all_goals
      have hq1 : (6 : ℚ) ≤
          (((7 - a) + (7 - b) + (7 - c) + (7 - d) + (7 - e) + (7 - f) : Int) : ℚ) := by
        exact_mod_cast hs1
    all_goals
      have hq2 : (((7 - a) + (7 - b) + (7 - c) + (7 - d) + (7 - e) + (7 - f) : Int) : ℚ) ≤
          36 := by
        exact_mod_cast hs2
    all_goals push_cast at hq1 hq2
    · rw [le_div_iff₀ (by norm_num : (0 : ℚ) < 6)]
      push_cast
      linarith
    · rw [div_le_iff₀ (by norm_num : (0 : ℚ) < 6)]
      push_cast
      linarith

/-- Witness for `C10_openness_bounds`: a record answering 1 on every item
survives the filter; its composite score after reverse-coding is within
[1, 6]. -/
theorem C10_openness_bounds_witness :
    1 ≤ (Openness.oRecord (Openness.reverseRecord ⟨30, 1, 1, 1, 1, 1, 1, 1⟩)).openness ∧
      (Openness.oRecord (Openness.reverseRecord ⟨30, 1, 1, 1, 1, 1, 1, 1⟩)).openness ≤ 6 := by
  have hm : Openness.oRecord (Openness.reverseRecord ⟨30, 1, 1, 1, 1, 1, 1, 1⟩) ∈
      Openness.pipelineData [⟨30, 1, 1, 1, 1, 1, 1, 1⟩] := by
    rw [openness_pipelineData_eq]
    have hf : ([⟨30, 1, 1, 1, 1, 1, 1, 1⟩] : List Openness.Record).filter
        (fun r => decide (Openness.isValid r)) = [⟨30, 1, 1, 1, 1, 1, 1, 1⟩] := by decide
    rw [hf]
    exact List.mem_singleton.mpr rfl
  exact (C10_openness_bounds [⟨30, 1, 1, 1, 1, 1, 1, 1⟩] _ hm).2.2.2.2.2.2

/-- **C4**: the aggregate computes the unweighted arithmetic mean of the
target per group (sum of contributing values divided by their count), and on
the input records with keys A, B encoded as 0, 1 and values 2, 4, 10 against
the axis [A, B, C] = [0, 1, 2] it yields mean 3 with count 2 for A, mean 10
with count 1 for B, and the no-data marker with count 0 for C
(`1_bar_chart.py` lines 37-43). -/
theorem C4_aggregate_example :
    (∀ vals : List ℚ, vals ≠ [] →
      Pipeline.meanOf vals * vals.length = vals.sum) ∧
      Pipeline.aggregate_rows [0, 1, 2] [(0, 2), (0, 4), (1, 10)] =
        [⟨0, some 3, 2, false⟩, ⟨1, some 10, 1, false⟩, ⟨2, none, 0, true⟩] := by
  constructor
  · intro vals h
    unfold Pipeline.meanOf
    rw [div_mul_cancel₀]
    exact Nat.cast_ne_zero.mpr (fun hl => h (List.length_eq_zero.mp hl))
  · norm_num [Pipeline.aggregate_rows, Pipeline.merge_left, Pipeline.merge_entry,
      Pipeline.groupby_mean, Pipeline.groupKeys, Pipeline.meanOf, Pipeline.group_size,
      List.insertionSort, List.orderedInsert]

/-- Witness for `C4_aggregate_example`: the mean of group A, values [2, 4],
times its count 2 gives back the group sum 6. -/
theorem C4_aggregate_example_witness :
    Pipeline.meanOf [2, 4] * (([2, 4] : List ℚ).length : ℚ) = ([2, 4] : List ℚ).sum :=
  C4_aggregate_example.1 [2, 4] (by decide)

/-- **C1, counterexample**: a ridgeline record with all four items valid and
`eisced = 3` satisfies every configured validity rule and survives
`clean_data` (the footnote N counts it), yet `EDU_LABELS` has no entry for
code 3, so the record contributes to no education group of the group-by
mean: passing every rule does not imply contributing to an aggregate. -/
theorem C1_valid_record_contributes_nowhere :
    Ridgeline.isValid ⟨1, 1, 1, 1, 3⟩ ∧
      Ridgeline.footnote_N [⟨1, 1, 1, 1, 3⟩] = 1 ∧
      (Ridgeline.EDU_ORDER.all
        (fun l => decide (Ridgeline.contributors [⟨1, 1, 1, 1, 3⟩] l = []))) = true := by
  refine ⟨by decide, by decide, by decide⟩

/-- **C1, amended**: a record contributes to a group-by mean only if it
satisfies every applicable validity rule (no invalid code enters any mean);
in the bar-chart pipeline the converse also holds — a cleaned record belongs
to the group of its own key combination iff it stems from a raw record
passing every rule — while in the ridgeline pipeline a rule-passing record
whose `eisced` code has no label may contribute to no group. -/
theorem C1_contribution_requires_validity :
    (∀ (rs : List BarChart.RawRecord) (m : Int) (lbl : String)
      (r' : BarChart.ChartRecord),
      r' ∈ BarChart.group rs m lbl ↔
        ∃ r, r ∈ rs ∧ BarChart.isValid r ∧ BarChart.mkChartRecord r = r' ∧
          r'.sclmeet = m ∧ r'.religious = some lbl) ∧
    ∀ (rs : List Ridgeline.Record) (lbl : String) (r' : Ridgeline.LRecord),
      r' ∈ Ridgeline.contributors rs lbl →
        ∃ r, r ∈ rs ∧ Ridgeline.isValid r ∧
          r' = Ridgeline.labelRecord (Ridgeline.vRecord r) := by
  constructor
  · intro rs m lbl r'
    unfold BarChart.group
    rw [List.mem_filter, barChart_mem_clean_data]
    constructor
    · rintro ⟨⟨r, hr, hv, he⟩, hp⟩
      simp only [Bool.and_eq_true, decide_eq_true_eq] at hp
      exact ⟨r, hr, hv, he, hp.1, hp.2⟩
    · rintro ⟨r, hr, hv, he, hm, hl⟩
      refine ⟨⟨r, hr, hv, he⟩, ?_⟩
      simp only [Bool.and_eq_true, decide_eq_true_eq]
      exact ⟨hm, hl⟩
  · intro rs lbl r' h
    unfold Ridgeline.contributors at h
    have hp := List.mem_of_mem_filter h
    rw [ridgeline_pipelineData_eq] at hp
    obtain ⟨r, hr, he⟩ := List.mem_map.mp hp
    have hv : Ridgeline.isValid r := by
      have hd := (List.mem_filter.mp hr).2
      simpa using hd
    exact ⟨r, List.mem_of_mem_filter hr, hv, he.symm⟩

/-- Witness for `C1_contribution_requires_validity`: a bar-chart record with
`stflife = 5`, `rlgblg = 1`, `sclmeet = 3` passes every rule and lands in
the group of its own keys; a ridgeline contributor to the Primary-education
group stems from a rule-passing raw record. -/
theorem C1_contribution_requires_validity_witness :
    (BarChart.mkChartRecord ⟨5, 1, 3⟩ ∈ BarChart.group [⟨5, 1, 3⟩] 3 "Religious") ∧
      ∃ r, r ∈ ([⟨1, 1, 1, 1, 1⟩] : List Ridgeline.Record) ∧ Ridgeline.isValid r ∧
        Ridgeline.labelRecord (Ridgeline.vRecord ⟨1, 1, 1, 1, 1⟩) =
          Ridgeline.labelRecord (Ridgeline.vRecord r) := by
  constructor
  · apply (C1_contribution_requires_validity.1 [⟨5, 1, 3⟩] 3 "Religious"
      (BarChart.mkChartRecord ⟨5, 1, 3⟩)).mpr
    exact ⟨⟨5, 1, 3⟩, by decide, by decide, rfl, by decide, by decide⟩
  · apply C1_contribution_requires_validity.2 [⟨1, 1, 1, 1, 1⟩] "Primary education"
    unfold Ridgeline.contributors
    apply List.mem_filter.mpr
    constructor
    · rw [ridgeline_pipelineData_eq]
      have hf : ([⟨1, 1, 1, 1, 1⟩] : List Ridgeline.Record).filter
          (fun r => decide (Ridgeline.isValid r)) = [⟨1, 1, 1, 1, 1⟩] := by decide
      rw [hf]
      exact List.mem_singleton.mpr rfl
    · decide

/-- **C7, counterexample**: on the ridgeline pipeline the reported footnote
N counts the single surviving record with `eisced = 3`, yet the per-group
sizes over all canonical education categories sum to 0 — the reported N is
not the count of records used in the aggregation. -/
theorem C7_N_exceeds_aggregated :
    Ridgeline.footnote_N [⟨2, 2, 2, 2, 3⟩] = 1 ∧
      ((Ridgeline.group_counts [⟨2, 2, 2, 2, 3⟩]).map Prod.snd).sum = 0 := by
  refine ⟨by decide, by decide⟩

/-- **C7, amended**: the N reported downstream equals the number of records
surviving every validity rule — never the raw input count; in the bar-chart
pipeline every surviving record moreover belongs to the group of its own key
combination, so N there also counts exactly the records used in the
aggregation, while the ridgeline footnote N may exceed the aggregated count
when a surviving `eisced` code has no label. -/
theorem C7_reported_N_counts_survivors :
    (∀ rs : List BarChart.RawRecord,
      BarChart.get_total_observations rs =
        (rs.filter (fun r => decide (BarChart.isValid r))).length) ∧
    (∀ rs : List Ridgeline.Record,
      Ridgeline.footnote_N rs =
        (rs.filter (fun r => decide (Ridgeline.isValid r))).length) ∧
    ∀ (rs : List BarChart.RawRecord) (r' : BarChart.ChartRecord),
      r' ∈ BarChart.clean_data rs → ∃ m lbl, r' ∈ BarChart.group rs m lbl := by
  refine ⟨?_, ?_, ?_⟩
  · intro rs
    unfold BarChart.get_total_observations
    rw [barChart_clean_data_eq, List.length_map]
  · intro rs
    unfold Ridgeline.footnote_N
    rw [ridgeline_pipelineData_eq, List.length_map]
  · intro rs r' h
    rw [barChart_mem_clean_data] at h
    obtain ⟨r, hr, hv, he⟩ := h
    have hlbl : ∃ lbl, BarChart.religiousLabel r.rlgblg = some lbl := by
      rcases hv.2.1 with h1 | h2
      · exact ⟨"Religious", by simp [BarChart.religiousLabel, h1]⟩
      · exact ⟨"Non-religious", by simp [BarChart.religiousLabel, h2]⟩
    obtain ⟨lbl, hlbl⟩ := hlbl
    refine ⟨r'.sclmeet, lbl, ?_⟩
    unfold BarChart.group
    apply List.mem_filter.mpr
    refine ⟨barChart_mem_clean_data.mpr ⟨r, hr, hv, he⟩, ?_⟩
    simp only [Bool.and_eq_true, decide_eq_true_eq]
    refine ⟨trivial, ?_⟩
    rw [← he]
    simpa [BarChart.mkChartRecord] using hlbl

/-- Witness for `C7_reported_N_counts_survivors`: the single cleaned record
of a one-row bar-chart input belongs to the group of its own keys. -/
theorem C7_reported_N_counts_survivors_witness :
    ∃ m lbl, BarChart.mkChartRecord ⟨5, 1, 3⟩ ∈ BarChart.group [⟨5, 1, 3⟩] m lbl := by
  apply C7_reported_N_counts_survivors.2.2 [⟨5, 1, 3⟩]
  decide

/-- **C9, counterexample**: two inputs whose only group has different
contributing-record counts (one record versus two) produce identical
aggregate outputs, so the rows handed to the renderer by
`DataManager.aggregate_data` hold no count of contributing records. -/
theorem C9_rows_carry_no_count :
    LifeSat.aggregate_data [⟨1, 4⟩] = LifeSat.aggregate_data [⟨1, 3⟩, ⟨1, 5⟩] ∧
      LifeSat.get_total_observations [⟨1, 4⟩] ≠
        LifeSat.get_total_observations [⟨1, 3⟩, ⟨1, 5⟩] := by
  constructor
  · norm_num [LifeSat.aggregate_data, LifeSat.yearRows, LifeSat.prepare_data,
      LifeSat.essRoundToYear, LifeSat.ESS_ROUND_INFO, LifeSat.ESS_YEARS,
      Pipeline.merge_left, Pipeline.merge_entry, Pipeline.groupby_mean,
      Pipeline.groupKeys, Pipeline.meanOf, List.insertionSort, List.orderedInsert,
      List.lookup, List.filterMap_cons, List.filterMap_nil, List.filter_cons,
      List.sum_cons, List.sum_nil]
  · decide

/-- **C9, amended**: the per-row output of the cited aggregations carries the
group key and the mean with a missing marker; the contributing-record count
is computed separately (`groupby(...).size()`), and when the pieces are
assembled into full rows, the rows follow axis order, each row's count is
the size of its key group, and its no-data flag holds exactly when that
count is zero. -/
theorem C9_assembled_rows_consistent (rows : List (Int × ℚ)) (axis : List Int) :
    (Pipeline.aggregate_rows axis rows).map Pipeline.AggregateRow.key = axis ∧
      ∀ row ∈ Pipeline.aggregate_rows axis rows,
        row.count = Pipeline.group_size rows row.key ∧
          (row.noData = true ↔ row.count = 0) := by
  constructor
  · unfold Pipeline.aggregate_rows
    rw [List.map_map]
    exact Pipeline.merge_left_map_fst (Pipeline.groupby_mean_keys_nodup rows) axis
  · intro row hrow
    unfold Pipeline.aggregate_rows at hrow
    obtain ⟨p, hp, he⟩ := List.mem_map.mp hrow
    subst he
    refine ⟨rfl, ?_⟩
    obtain ⟨y, m⟩ := p
    rcases (Pipeline.mem_merge_left hp).2 with ⟨hn, hf⟩ | ⟨v, hv, hmem⟩
    · subst hn
      simp only [Option.isNone_none, true_iff]
      unfold Pipeline.group_size
      rw [List.length_eq_zero]
      apply Pipeline.filter_key_eq_nil
      intro q hq hqy
      have hy : y ∈ (Pipeline.groupby_mean rows).map Prod.fst :=
        Pipeline.mem_fst_groupby_mean.mpr (hqy ▸ List.mem_map_of_mem Prod.fst hq)
      obtain ⟨w, hw, hwe⟩ := List.mem_map.mp hy
      have hwf : w ∈ (Pipeline.groupby_mean rows).filter (fun p => decide (p.1 = y)) :=
        List.mem_filter.mpr ⟨hw, by simpa using hwe⟩
      rw [hf] at hwf
      exact absurd hwf (List.not_mem_nil w)
    · have hy : y ∈ rows.map Prod.fst := by
        have hk : y ∈ (Pipeline.groupby_mean rows).map Prod.fst :=
          List.mem_map_of_mem Prod.fst hmem
        exact Pipeline.mem_fst_groupby_mean.mp hk
      obtain ⟨q, hq, hqe⟩ := List.mem_map.mp hy
      have hqf : q ∈ rows.filter (fun p => decide (p.1 = y)) :=
        List.mem_filter.mpr ⟨hq, by simpa using hqe⟩
      have hne : Pipeline.group_size rows y ≠ 0 := by
        unfold Pipeline.group_size
        rw [ne_eq, List.length_eq_zero]
        intro hnil
        rw [hnil] at hqf
        exact List.not_mem_nil q hqf
      subst hv
      simp [hne]

/-- Witness for `C9_assembled_rows_consistent`: on an empty record set with
a one-entry axis, the single assembled row reports count 0 and the no-data
flag set. -/
theorem C9_assembled_rows_consistent_witness :
    (⟨0, none, 0, true⟩ : Pipeline.AggregateRow).count =
        Pipeline.group_size [] (⟨0, none, 0, true⟩ : Pipeline.AggregateRow).key ∧
      ((⟨0, none, 0, true⟩ : Pipeline.AggregateRow).noData = true ↔
        (⟨0, none, 0, true⟩ : Pipeline.AggregateRow).count = 0) :=
  (C9_assembled_rows_consistent [] [0]).2 ⟨0, none, 0, true⟩ (by decide)
